import Mathlib

/-
Verification of the x402-payments core of the signal-bot-tee repository.
The Rust sources under src/crates/x402-payments are shallowly embedded:
u64 values are Nat with the saturating/wrapping points made explicit,
async state is explicit state passing, and fallible calls return Except.
-/

namespace X402

/-- Largest value of Rust's u64 (u64::MAX), the saturation bound of
`saturating_add`. -/
def U64MAX : Nat := 2 ^ 64 - 1

/-- Rust `u64::saturating_add` on the Nat model. -/
def satAdd (a b : Nat) : Nat := min (a + b) U64MAX

/-- Supported blockchain networks
(src/crates/x402-payments/src/types.rs, `enum Chain`). -/
inductive Chain
  | Base
  | Near
  | Solana
deriving DecidableEq

/-- Status of a deposit (types.rs, `enum DepositStatus`). -/
inductive DepositStatus
  | Pending
  | Confirmed
  | Failed
deriving DecidableEq

/-- Credit balance for a user (types.rs, `struct CreditBalance`).
u64 fields are Nat (kept below 2^64 by the saturating operations);
`DateTime<Utc>` timestamps are Nat instants supplied by the caller in
place of `Utc::now()`. -/
structure CreditBalance where
  user_id : String
  credits_remaining : Nat
  total_deposited : Nat
  total_consumed : Nat
  last_deposit_at : Option Nat
  last_usage_at : Option Nat
  created_at : Nat
deriving DecidableEq

namespace CreditBalance

/-- `CreditBalance::new` (types.rs lines 52-62): fresh zero balance. -/
def new (user_id : String) (now : Nat) : CreditBalance :=
  { user_id := user_id, credits_remaining := 0, total_deposited := 0,
    total_consumed := 0, last_deposit_at := none, last_usage_at := none,
    created_at := now }

/-- `CreditBalance::add_credits` (types.rs lines 65-69): saturating
credit of a deposit amount to both `credits_remaining` and
`total_deposited`. -/
def add_credits (b : CreditBalance) (amount : Nat) (now : Nat) : CreditBalance :=
  { b with credits_remaining := satAdd b.credits_remaining amount,
           total_deposited := satAdd b.total_deposited amount,
           last_deposit_at := some now }

/-- `CreditBalance::deduct_credits` (types.rs lines 72-81): checked
debit. Returns the success flag together with the (possibly unchanged)
balance. -/
def deduct_credits (b : CreditBalance) (amount : Nat) (now : Nat) :
    Bool × CreditBalance :=
  if b.credits_remaining ≥ amount then
    (true,
     { b with credits_remaining := b.credits_remaining - amount,
              total_consumed := satAdd b.total_consumed amount,
              last_usage_at := some now })
  else (false, b)

/-- `CreditBalance::has_credits` (types.rs lines 84-86). -/
def has_credits (b : CreditBalance) (amount : Nat) : Bool :=
  b.credits_remaining ≥ amount

end CreditBalance

/-- A deposit record (types.rs, `struct Deposit`). -/
structure Deposit where
  id : String
  user_id : String
  chain : Chain
  tx_hash : String
  amount_usdc : Nat
  credits_granted : Nat
  status : DepositStatus
  created_at : Nat
  confirmed_at : Option Nat
deriving DecidableEq

/-- Usage record (types.rs, `struct UsageRecord`). -/
structure UsageRecord where
  user_id : String
  conversation_id : String
  prompt_tokens : Nat
  completion_tokens : Nat
  total_tokens : Nat
  credits_consumed : Nat
  timestamp : Nat
deriving DecidableEq

/-- Payment errors (src/crates/x402-payments/src/error.rs,
`enum PaymentError`); only the constructors reached by the modelled
code paths are included. -/
inductive PaymentError
  | InsufficientCredits (required : Nat) (available : Nat)
  | UserNotFound (user : String)
  | DuplicateTransaction (tx : String)
  | UnsupportedChain (msg : String)
  | RpcError (msg : String)
  | TxNotFound (tx : String)
  | TxFailed (tx : String)
  | NoTransferFound (msg : String)
  | SenderMismatch (expected : String) (actual : String)
  | AmountMismatch (expected : Nat) (actual : Nat)
  | Encryption (msg : String)
  | Storage (msg : String)
  | Serialization
  | Internal (msg : String)
deriving DecidableEq

/-- Persistent aggregate of the credit store (store.rs, `struct
CreditStoreData`). The `HashMap` of balances is modelled as an
association list (first binding wins) and the `HashSet` of processed
transaction hashes as a list queried by membership. -/
structure CreditStoreData where
  version : Nat
  balances : List (String × CreditBalance)
  deposits : List Deposit
  usage_log : List UsageRecord
  processed_tx_hashes : List String
deriving DecidableEq

/-- store.rs `DATA_VERSION`. -/
def DATA_VERSION : Nat := 1

/-- `CreditStoreData::default` (store.rs lines 44-54): the empty store. -/
def CreditStoreData.default : CreditStoreData :=
  { version := DATA_VERSION, balances := [], deposits := [],
    usage_log := [], processed_tx_hashes := [] }

/-- Association-list lookup modelling `HashMap::get`. -/
def lookupBal : List (String × CreditBalance) → String → Option CreditBalance
  | [], _ => none
  | (k, v) :: rest, u => if k = u then some v else lookupBal rest u

/-- `HashMap::entry(u).or_insert_with(|| dflt)` followed by an in-place
mutation `f` of the entry: the first binding of `u` is replaced by its
image under `f`; a missing user is inserted as `f dflt`. -/
def updateBal (l : List (String × CreditBalance)) (u : String)
    (dflt : CreditBalance) (f : CreditBalance → CreditBalance) :
    List (String × CreditBalance) :=
  match l with
  | [] => [(u, f dflt)]
  | (k, v) :: rest =>
    if k = u then (k, f v) :: rest else (k, v) :: updateBal rest u dflt f

/-- `CreditStore::get_balance` (store.rs lines 246-252): stored balance,
or a fresh zero balance for an unseen user; never mutates. -/
def CreditStore.get_balance (data : CreditStoreData) (user_id : String)
    (now : Nat) : CreditBalance :=
  (lookupBal data.balances user_id).getD (CreditBalance.new user_id now)

/-- `CreditStore::add_credits` (store.rs lines 261-293), the in-memory
critical section under the write lock: replay check, then id recording,
deposit append and balance credit. Persistence runs after the write
lock is released (see the lock-order trace model below). On the replay
error path the aggregate is returned unchanged. -/
def CreditStore.add_credits (data : CreditStoreData) (d : Deposit)
    (now : Nat) : CreditStoreData × Except PaymentError CreditBalance :=
  if d.tx_hash ∈ data.processed_tx_hashes then
    (data, .error (.DuplicateTransaction d.tx_hash))
  else
    let data₁ : CreditStoreData :=
      { data with
        processed_tx_hashes := data.processed_tx_hashes ++ [d.tx_hash],
        deposits := data.deposits ++ [d] }
    let b := (lookupBal data₁.balances d.user_id).getD
      (CreditBalance.new d.user_id now)
    let newBals := updateBal data₁.balances d.user_id
      (CreditBalance.new d.user_id now)
      (fun b0 => b0.add_credits d.credits_granted now)
    ({ data₁ with balances := newBals },
     .ok (b.add_credits d.credits_granted now))

/-- `CreditStore::deduct_credits` (store.rs lines 296-336), the
in-memory critical section under the write lock. The source pushes the
usage record before re-looking-up the balance, so the (in practice
unreachable) UserNotFound path leaves the usage record appended. -/
def CreditStore.deduct_credits (data : CreditStoreData) (user_id : String)
    (credits : Nat) (usage : UsageRecord) (now : Nat) :
    CreditStoreData × Except PaymentError CreditBalance :=
  let available := ((lookupBal data.balances user_id).map
      (fun b => b.credits_remaining)).getD 0
  if available < credits then
    (data, .error (.InsufficientCredits credits available))
  else
    let data₁ := { data with usage_log := data.usage_log ++ [usage] }
    match lookupBal data₁.balances user_id with
    | none => (data₁, .error (.UserNotFound user_id))
    | some b =>
      let newBals := updateBal data₁.balances user_id b
        (fun b0 => (b0.deduct_credits credits now).2)
      ({ data₁ with balances := newBals },
       .ok ((b.deduct_credits credits now).2))

/-- One mutating ledger call, with the timestamp the runtime would
supply for `Utc::now()`. -/
inductive LedgerOp
  | add (d : Deposit) (now : Nat)
  | deduct (user_id : String) (credits : Nat) (usage : UsageRecord) (now : Nat)

/-- Apply one ledger call to the aggregate. -/
def applyOp (data : CreditStoreData) :
    LedgerOp → CreditStoreData × Except PaymentError CreditBalance
  | .add d now => CreditStore.add_credits data d now
  | .deduct u c ug now => CreditStore.deduct_credits data u c ug now

/-- Run a sequence of ledger calls, threading the evolving aggregate. -/
def runOps (data : CreditStoreData) : List LedgerOp → CreditStoreData
  | [] => data
  | op :: rest => runOps (applyOp data op).1 rest

/-- Total credits granted by the `add` operations of a call sequence. -/
def sumCredits : List LedgerOp → Nat
  | [] => 0
  | .add d _ :: rest => d.credits_granted + sumCredits rest
  | .deduct _ _ _ _ :: rest => sumCredits rest

/-- Accounting invariant of one balance together with the u64 bound
that keeps the saturating arithmetic exact. -/
def BalInv (b : CreditBalance) : Prop :=
  b.total_consumed ≤ b.total_deposited ∧
  b.credits_remaining = b.total_deposited - b.total_consumed ∧
  b.total_deposited ≤ U64MAX

/-- Accounting invariant of every stored balance. -/
def StoreInv (data : CreditStoreData) : Prop :=
  ∀ p ∈ data.balances, BalInv p.2

-- ### Basic lemmas about the association-list balances map

theorem lookupBal_mem {l : List (String × CreditBalance)} {u : String}
    {b : CreditBalance} (h : lookupBal l u = some b) : (u, b) ∈ l := by
  induction l with
  | nil => simp [lookupBal] at h
  | cons p rest ih =>
    obtain ⟨k, v⟩ := p
    by_cases hk : k = u
    · subst hk
      simp [lookupBal] at h
      subst h
      exact List.mem_cons_self _ _
    · simp [lookupBal, hk] at h
      exact List.mem_cons_of_mem _ (ih h)

theorem mem_updateBal {l : List (String × CreditBalance)} {u : String}
    {dflt : CreditBalance} {f : CreditBalance → CreditBalance}
    {p : String × CreditBalance} (h : p ∈ updateBal l u dflt f) :
    p ∈ l ∨ p = (u, f ((lookupBal l u).getD dflt)) := by
  induction l with
  | nil =>
    simp [updateBal] at h
    right
    simp [lookupBal, h]
  | cons q rest ih =>
    obtain ⟨k, v⟩ := q
    by_cases hk : k = u
    · subst hk
      simp [updateBal, List.mem_cons] at h
      simp [lookupBal, List.mem_cons]
      tauto
    · simp [updateBal, hk, List.mem_cons] at h
      simp [lookupBal, hk, List.mem_cons]
      rcases h with h | h
      · tauto
      · rcases ih h with h' | h' <;> tauto

theorem lookupBal_updateBal_self (l : List (String × CreditBalance))
    (u : String) (dflt : CreditBalance) (f : CreditBalance → CreditBalance) :
    lookupBal (updateBal l u dflt f) u =
      some (f ((lookupBal l u).getD dflt)) := by
  induction l with
  | nil => simp [updateBal, lookupBal]
  | cons q rest ih =>
    obtain ⟨k, v⟩ := q
    by_cases hk : k = u
    · subst hk
      simp [updateBal, lookupBal]
    · simp [updateBal, hk, lookupBal, ih]

theorem lookupBal_updateBal_other (l : List (String × CreditBalance))
    (u u' : String) (dflt : CreditBalance) (f : CreditBalance → CreditBalance)
    (hne : u' ≠ u) :
    lookupBal (updateBal l u dflt f) u' = lookupBal l u' := by
  induction l with
  | nil => simp [updateBal, lookupBal, Ne.symm hne]
  | cons q rest ih =>
    obtain ⟨k, v⟩ := q
    by_cases hk : k = u
    · subst hk
      simp [updateBal, lookupBal, Ne.symm hne]
    · simp [updateBal, hk, lookupBal, ih]

-- ### Arithmetic facts about the saturating u64 model

theorem satAdd_of_le {a b : Nat} (h : a + b ≤ U64MAX) : satAdd a b = a + b := by
  simp [satAdd, Nat.min_def]
  omega

theorem le_satAdd {a : Nat} (b : Nat) (h : a ≤ U64MAX) : a ≤ satAdd a b := by
  simp only [satAdd, Nat.min_def]
  split <;> omega

theorem balInv_new (u : String) (now : Nat) : BalInv (CreditBalance.new u now) := by
  simp [BalInv, CreditBalance.new, U64MAX]

theorem balInv_add {b : CreditBalance} (c now : Nat) (hb : BalInv b)
    (hc : b.total_deposited + c ≤ U64MAX) :
    BalInv (b.add_credits c now) := by
  obtain ⟨h1, h2, h3⟩ := hb
  have hcr : b.credits_remaining + c ≤ U64MAX := by omega
  refine ⟨?_, ?_, ?_⟩ <;>
    simp [CreditBalance.add_credits, satAdd_of_le hc, satAdd_of_le hcr] <;> omega

theorem balInv_deduct {b : CreditBalance} (c now : Nat) (hb : BalInv b)
    (hc : c ≤ b.credits_remaining) :
    BalInv ((b.deduct_credits c now).2) := by
  obtain ⟨h1, h2, h3⟩ := hb
  have htc : b.total_consumed + c ≤ U64MAX := by omega
  refine ⟨?_, ?_, ?_⟩ <;>
    simp [CreditBalance.deduct_credits, hc, satAdd_of_le htc] <;> omega

-- ### Shape of the aggregate after each mutating call

/-- An already-processed transaction id makes `add_credits` fail before
any mutation (helper shared by several claims). -/
theorem add_credits_of_mem (data : CreditStoreData) (d : Deposit) (now : Nat)
    (h : d.tx_hash ∈ data.processed_tx_hashes) :
    CreditStore.add_credits data d now =
      (data, .error (.DuplicateTransaction d.tx_hash)) := by
  simp [CreditStore.add_credits, h]

theorem add_credits_not_mem_fst (data : CreditStoreData) (d : Deposit)
    (now : Nat) (h : d.tx_hash ∉ data.processed_tx_hashes) :
    (CreditStore.add_credits data d now).1.balances =
      updateBal data.balances d.user_id (CreditBalance.new d.user_id now)
        (fun b0 => b0.add_credits d.credits_granted now) := by
  simp [CreditStore.add_credits, h]

theorem deduct_balances_none (data : CreditStoreData) (u : String)
    (c : Nat) (ug : UsageRecord) (now : Nat)
    (hlk : lookupBal data.balances u = none) :
    (CreditStore.deduct_credits data u c ug now).1.balances =
      data.balances := by
  by_cases h0 : 0 < c
  · simp [CreditStore.deduct_credits, hlk, h0]
  · have hc0 : c = 0 := by omega
    subst hc0
    simp [CreditStore.deduct_credits, hlk]

theorem deduct_balances_insufficient (data : CreditStoreData) (u : String)
    (c : Nat) (ug : UsageRecord) (now : Nat) (b : CreditBalance)
    (hlk : lookupBal data.balances u = some b)
    (hcb : ¬ c ≤ b.credits_remaining) :
    (CreditStore.deduct_credits data u c ug now).1.balances =
      data.balances := by
  have hlt : b.credits_remaining < c := Nat.lt_of_not_le hcb
  simp [CreditStore.deduct_credits, hlk, hlt]

theorem deduct_balances_some (data : CreditStoreData) (u : String)
    (c : Nat) (ug : UsageRecord) (now : Nat) (b : CreditBalance)
    (hlk : lookupBal data.balances u = some b)
    (hcb : c ≤ b.credits_remaining) :
    (CreditStore.deduct_credits data u c ug now).1.balances =
      updateBal data.balances u b (fun b0 => (b0.deduct_credits c now).2) := by
  simp [CreditStore.deduct_credits, hlk, Nat.not_lt.mpr hcb]

-- ### C1: the accounting invariant over call sequences

/-- Hypotheses carried through a call sequence: the invariant of all
stored balances, plus the headroom that keeps every saturating add
exact. -/
def GoodFor (ops : List LedgerOp) (data : CreditStoreData) : Prop :=
  StoreInv data ∧ sumCredits ops ≤ U64MAX ∧
  ∀ p ∈ data.balances, p.2.total_deposited + sumCredits ops ≤ U64MAX

theorem goodFor_step (op : LedgerOp) (ops : List LedgerOp)
    (data : CreditStoreData) (h : GoodFor (op :: ops) data) :
    GoodFor ops (applyOp data op).1 := by
  obtain ⟨hInv, hSum, hHd⟩ := h
  cases op with
  | add d now =>
    have hSum' : d.credits_granted + sumCredits ops ≤ U64MAX := by
      simpa [sumCredits] using hSum
    by_cases hdup : d.tx_hash ∈ data.processed_tx_hashes
    · refine ⟨?_, by omega, ?_⟩
      · simpa [applyOp, add_credits_of_mem data d now hdup] using hInv
      · intro p hp
        simp only [applyOp, add_credits_of_mem data d now hdup] at hp
        have := hHd p hp
        simp [sumCredits] at this
        omega
    · have hbal := add_credits_not_mem_fst data d now hdup
      have hb0inv : BalInv ((lookupBal data.balances d.user_id).getD
          (CreditBalance.new d.user_id now)) := by
        cases hlk : lookupBal data.balances d.user_id with
        | none => simpa using balInv_new d.user_id now
        | some b => simpa using hInv _ (lookupBal_mem hlk)
      have hb0hd : ((lookupBal data.balances d.user_id).getD
            (CreditBalance.new d.user_id now)).total_deposited +
          d.credits_granted + sumCredits ops ≤ U64MAX := by
        cases hlk : lookupBal data.balances d.user_id with
        | none =>
          simp [CreditBalance.new]
          omega
        | some b =>
          have := hHd _ (lookupBal_mem hlk)
          simp [sumCredits] at this
          simp
          omega
      refine ⟨?_, by omega, ?_⟩
      · intro p hp
        simp only [applyOp] at hp
        rw [hbal] at hp
        rcases mem_updateBal hp with hmem | hnew
        · exact hInv p hmem
        · rw [hnew]
          exact balInv_add _ _ hb0inv (by omega)
      · intro p hp
        simp only [applyOp] at hp
        rw [hbal] at hp
        rcases mem_updateBal hp with hmem | hnew
        · have := hHd p hmem
          simp [sumCredits] at this
          omega
        · rw [hnew]
          have hfit : ((lookupBal data.balances d.user_id).getD
              (CreditBalance.new d.user_id now)).total_deposited +
              d.credits_granted ≤ U64MAX := by omega
          simp [CreditBalance.add_credits, satAdd_of_le hfit]
          omega
  | deduct u c ug now =>
    have hSum' : sumCredits (.deduct u c ug now :: ops) = sumCredits ops := by
      simp [sumCredits]
    rw [hSum'] at hSum
    refine ⟨?_, hSum, ?_⟩
    · intro p hp
      simp only [applyOp] at hp
      cases hlk : lookupBal data.balances u with
      | none =>
        rw [deduct_balances_none data u c ug now hlk] at hp
        exact hInv p hp
      | some b =>
        by_cases hcb : c ≤ b.credits_remaining
        · rw [deduct_balances_some data u c ug now b hlk hcb] at hp
          rcases mem_updateBal hp with hmem | hnew
          · exact hInv p hmem
          · rw [hlk] at hnew
            simp at hnew
            rw [hnew]
            exact balInv_deduct c now (hInv _ (lookupBal_mem hlk)) hcb
        · rw [deduct_balances_insufficient data u c ug now b hlk hcb] at hp
          exact hInv p hp
    · intro p hp
      simp only [applyOp] at hp
      cases hlk : lookupBal data.balances u with
      | none =>
        rw [deduct_balances_none data u c ug now hlk] at hp
        have := hHd p hp
        simpa [sumCredits] using this
      | some b =>
        by_cases hcb : c ≤ b.credits_remaining
        · rw [deduct_balances_some data u c ug now b hlk hcb] at hp
          rcases mem_updateBal hp with hmem | hnew
          · have := hHd p hmem
            simpa [sumCredits] using this
          · rw [hlk] at hnew
            simp at hnew
            rw [hnew]
            have := hHd _ (lookupBal_mem hlk)
            simp [sumCredits] at this
            simpa [CreditBalance.deduct_credits, hcb] using this
        · rw [deduct_balances_insufficient data u c ug now b hlk hcb] at hp
          have := hHd p hp
          simpa [sumCredits] using this

theorem storeInv_runOps : ∀ (ops : List LedgerOp) (data : CreditStoreData),
    GoodFor ops data → StoreInv (runOps data ops) := by
  intro ops
  induction ops with
  | nil =>
    intro data h
    exact h.1
  | cons op rest ih =>
    intro data h
    exact ih _ (goodFor_step op rest data h)

/-- Lifetime deposits of a user as stored (0 for an unseen user). -/
def tdOf (data : CreditStoreData) (u : String) : Nat :=
  ((lookupBal data.balances u).map (fun b => b.total_deposited)).getD 0

/-- Lifetime consumption of a user as stored (0 for an unseen user). -/
def tcOf (data : CreditStoreData) (u : String) : Nat :=
  ((lookupBal data.balances u).map (fun b => b.total_consumed)).getD 0

theorem monotone_step (data : CreditStoreData) (op : LedgerOp) (u : String)
    (hbound : ∀ p ∈ data.balances,
      p.2.total_deposited ≤ U64MAX ∧ p.2.total_consumed ≤ U64MAX) :
    tdOf data u ≤ tdOf (applyOp data op).1 u ∧
    tcOf data u ≤ tcOf (applyOp data op).1 u := by
  cases op with
  | add d now =>
    by_cases hdup : d.tx_hash ∈ data.processed_tx_hashes
    · simp [applyOp, add_credits_of_mem data d now hdup]
    · have hbal := add_credits_not_mem_fst data d now hdup
      by_cases hu : u = d.user_id
      · subst hu
        constructor
        · simp only [tdOf, applyOp, hbal, lookupBal_updateBal_self]
          cases hlk : lookupBal data.balances d.user_id with
          | none => simp
          | some b =>
            have hb := (hbound _ (lookupBal_mem hlk)).1
            simp [hlk, CreditBalance.add_credits]
            exact le_satAdd _ hb
        · simp only [tcOf, applyOp, hbal, lookupBal_updateBal_self]
          cases hlk : lookupBal data.balances d.user_id with
          | none => simp [hlk, CreditBalance.add_credits, CreditBalance.new]
          | some b => simp [hlk, CreditBalance.add_credits]
      · constructor <;>
          simp [tdOf, tcOf, applyOp, hbal,
            lookupBal_updateBal_other _ _ _ _ _ hu]
  | deduct u0 c ug now =>
    cases hlk : lookupBal data.balances u0 with
    | none =>
      constructor <;>
        simp [tdOf, tcOf, applyOp, deduct_balances_none data u0 c ug now hlk]
    | some b =>
      by_cases hcb : c ≤ b.credits_remaining
      · have hbal := deduct_balances_some data u0 c ug now b hlk hcb
        by_cases hu : u = u0
        · subst hu
          constructor
          · simp [tdOf, applyOp, hbal, hlk, lookupBal_updateBal_self,
              CreditBalance.deduct_credits, hcb]
          · simp only [tcOf, applyOp, hbal, lookupBal_updateBal_self]
            have hb := (hbound _ (lookupBal_mem hlk)).2
            simp [hlk, CreditBalance.deduct_credits, hcb]
            exact le_satAdd _ hb
        · constructor <;>
            simp [tdOf, tcOf, applyOp, hbal,
              lookupBal_updateBal_other _ _ _ _ _ hu]
      · have hbal := deduct_balances_insufficient data u0 c ug now b hlk hcb
        constructor <;> simp [tdOf, tcOf, applyOp, hbal]

theorem runOps_append (data : CreditStoreData) (ops : List LedgerOp)
    (op : LedgerOp) :
    runOps data (ops ++ [op]) = (applyOp (runOps data ops) op).1 := by
  induction ops generalizing data with
  | nil => rfl
  | cons o rest ih => simpa [runOps] using ih (applyOp data o).1

theorem sumCredits_le_append (ops : List LedgerOp) (op : LedgerOp) :
    sumCredits ops ≤ sumCredits (ops ++ [op]) := by
  induction ops with
  | nil => cases op <;> simp [sumCredits]
  | cons o rest ih => cases o <;> simp [sumCredits] <;> omega

theorem storeInv_default : StoreInv CreditStoreData.default := by
  intro p hp
  simp [CreditStoreData.default] at hp

theorem goodFor_default (ops : List LedgerOp)
    (hsum : sumCredits ops ≤ U64MAX) :
    GoodFor ops CreditStoreData.default := by
  refine ⟨storeInv_default, hsum, ?_⟩
  intro p hp
  simp [CreditStoreData.default] at hp

/-- A sample balance of 100 credits for user "u". -/
def bal100 : CreditBalance :=
  { user_id := "u", credits_remaining := 100, total_deposited := 100,
    total_consumed := 0, last_deposit_at := none, last_usage_at := none,
    created_at := 0 }

/-- A sample store holding only `bal100`. -/
def store100 : CreditStoreData :=
  { CreditStoreData.default with balances := [("u", bal100)] }

/-- A sample usage record consuming 200 credits. -/
def usage200 : UsageRecord :=
  { user_id := "u", conversation_id := "u", prompt_tokens := 1,
    completion_tokens := 1, total_tokens := 2, credits_consumed := 200,
    timestamp := 7 }

/-- A sample deposit of user "u", parameterised by id, transaction hash
and amount. -/
def sampleDep (idS txS : String) (c : Nat) : Deposit :=
  { id := idS, user_id := "u", chain := .Base, tx_hash := txS,
    amount_usdc := c, credits_granted := c, status := .Pending,
    created_at := 0, confirmed_at := none }

/-- A sample usage record consuming `c` credits. -/
def sampleUsage (c : Nat) : UsageRecord :=
  { user_id := "u", conversation_id := "u", prompt_tokens := 1,
    completion_tokens := 1, total_tokens := 2, credits_consumed := c,
    timestamp := 1 }

/-- Whether a ledger call result is a success. -/
def isOkResult : Except PaymentError CreditBalance → Bool
  | .ok _ => true
  | .error _ => false

/-- First step of the C1 counterexample run: deposit u64::MAX credits. -/
def cxS1 : CreditStoreData × Except PaymentError CreditBalance :=
  applyOp CreditStoreData.default (.add (sampleDep "d1" "t1" U64MAX) 0)

/-- Second step: deduct 5 credits. -/
def cxS2 : CreditStoreData × Except PaymentError CreditBalance :=
  applyOp cxS1.1 (.deduct "u" 5 (sampleUsage 5) 1)

/-- Third step: deposit 10 further credits, saturating total_deposited. -/
def cxS3 : CreditStoreData × Except PaymentError CreditBalance :=
  applyOp cxS2.1 (.add (sampleDep "d2" "t2" 10) 2)

/-- C1 (counterexample): three successful calls — deposit u64::MAX
credits, deduct 5, deposit 10 — leave the user's balance with
credits_remaining ≠ total_deposited − total_consumed, because
`saturating_add` caps `total_deposited` at u64::MAX while
`credits_remaining` still has headroom; the claimed invariant does not
survive saturation. -/
theorem ledger_invariant_counterexample :
    isOkResult cxS1.2 = true ∧ isOkResult cxS2.2 = true ∧
    isOkResult cxS3.2 = true ∧
    (CreditStore.get_balance cxS3.1 "u" 9).credits_remaining ≠
      (CreditStore.get_balance cxS3.1 "u" 9).total_deposited -
        (CreditStore.get_balance cxS3.1 "u" 9).total_consumed := by
  refine ⟨rfl, rfl, rfl, by decide⟩

/-- C1 (amended): for every sequence of ledger calls whose total
granted credits stay within u64 (so no `saturating_add` saturates),
after the whole sequence — failed calls included, so no error path
breaks it — every stored balance satisfies credits_remaining =
total_deposited − total_consumed (the `StoreInv` conjunct); both
lifetime totals are monotonically non-decreasing at every call; and a
debit either subtracts exactly the requested amount from a sufficient
balance or is rejected with the balance untouched, never clamped. -/
theorem ledger_invariant_amended :
    (∀ ops : List LedgerOp, sumCredits ops ≤ U64MAX →
      StoreInv (runOps CreditStoreData.default ops)) ∧
    (∀ (ops : List LedgerOp) (op : LedgerOp) (u : String),
      sumCredits (ops ++ [op]) ≤ U64MAX →
      tdOf (runOps CreditStoreData.default ops) u ≤
        tdOf (runOps CreditStoreData.default (ops ++ [op])) u ∧
      tcOf (runOps CreditStoreData.default ops) u ≤
        tcOf (runOps CreditStoreData.default (ops ++ [op])) u) ∧
    (∀ (b : CreditBalance) (c now : Nat),
      (c ≤ b.credits_remaining →
        ((b.deduct_credits c now).2).credits_remaining =
          b.credits_remaining - c) ∧
      (b.credits_remaining < c → b.deduct_credits c now = (false, b))) := by
  refine ⟨?_, ?_, ?_⟩
  · intro ops hsum
    exact storeInv_runOps ops _ (goodFor_default ops hsum)
  · intro ops op u hsum
    have hsum' : sumCredits ops ≤ U64MAX :=
      le_trans (sumCredits_le_append ops op) hsum
    have hinv : StoreInv (runOps CreditStoreData.default ops) :=
      storeInv_runOps ops _ (goodFor_default ops hsum')
    have hbound : ∀ p ∈ (runOps CreditStoreData.default ops).balances,
        p.2.total_deposited ≤ U64MAX ∧ p.2.total_consumed ≤ U64MAX := by
      intro p hp
      obtain ⟨h1, h2, h3⟩ := hinv p hp
      exact ⟨h3, le_trans h1 h3⟩
    rw [runOps_append]
    exact monotone_step _ op u hbound
  · intro b c now
    constructor
    · intro hc
      simp [CreditBalance.deduct_credits, hc]
    · intro hc
      have hnot : ¬ b.credits_remaining ≥ c := by omega
      simp [CreditBalance.deduct_credits, hnot]

/-- Witness for C1 (amended): hypotheses discharged on a concrete run. -/
theorem ledger_invariant_amended_witness :
    StoreInv (runOps CreditStoreData.default
      [.add (sampleDep "d1" "t1" 5) 0]) ∧
    tdOf (runOps CreditStoreData.default []) "u" ≤
      tdOf (runOps CreditStoreData.default
        ([] ++ [.add (sampleDep "d1" "t1" 5) 0])) "u" ∧
    ((bal100.deduct_credits 40 1).2).credits_remaining = 100 - 40 := by
  refine ⟨?_, ?_, ?_⟩
  · exact ledger_invariant_amended.1 _ (by decide)
  · exact (ledger_invariant_amended.2.1 [] _ "u" (by decide)).1
  · exact (ledger_invariant_amended.2.2 bal100 40 1).1 (by decide)

-- ### C5: insufficiency leaves the aggregate unchanged

/-- The `available` amount read by `deduct_credits` equals the
`credits_remaining` of `get_balance` (zero for an unseen user). -/
theorem available_eq_get_balance (data : CreditStoreData) (u : String)
    (now : Nat) :
    ((lookupBal data.balances u).map (fun b => b.credits_remaining)).getD 0 =
      (CreditStore.get_balance data u now).credits_remaining := by
  cases h : lookupBal data.balances u <;>
    simp [CreditStore.get_balance, h, CreditBalance.new]

/-- C5: for every requested amount strictly greater than the user's
`credits_remaining` (an unseen user having 0 available),
`deduct_credits` returns the aggregate unchanged — no debit, no usage
record — together with an `InsufficientCredits` error carrying the
required amount and the correct available amount. The sufficiency check
and the debit are a single sequential function, with no intervening
state change. -/
theorem deduct_credits_insufficient (data : CreditStoreData) (u : String)
    (c : Nat) (ug : UsageRecord) (now now' : Nat)
    (h : (CreditStore.get_balance data u now').credits_remaining < c) :
    CreditStore.deduct_credits data u c ug now =
      (data, .error (.InsufficientCredits c
        (CreditStore.get_balance data u now').credits_remaining)) := by
  have havail := available_eq_get_balance data u now'
  simp only [CreditStore.deduct_credits, havail]
  simp [h]

/-- Witness for C5: a user with 100 credits asked for 200. -/
theorem deduct_credits_insufficient_witness :
    (CreditStore.get_balance store100 "u" 0).credits_remaining < 200 ∧
    CreditStore.deduct_credits store100 "u" 200 usage200 7 =
      (store100, .error (.InsufficientCredits 200 100)) := by
  refine ⟨by decide, ?_⟩
  exact deduct_credits_insufficient store100 "u" 200 usage200 7 0 (by decide)

-- ### C2: replay protection never credits the same transaction twice

/-- C2: a deposit whose transaction id is already processed is rejected
with a replay error and the whole aggregate is returned unchanged; and
after a successful `add_credits`, a second call with the same
transaction id fails the same way, leaving the post-first-call
aggregate untouched, so the balance is never credited twice. -/
theorem add_credits_replay_protected :
    (∀ (data : CreditStoreData) (d : Deposit) (now : Nat),
      d.tx_hash ∈ data.processed_tx_hashes →
      CreditStore.add_credits data d now =
        (data, .error (.DuplicateTransaction d.tx_hash))) ∧
    (∀ (data : CreditStoreData) (d₁ d₂ : Deposit) (now₁ now₂ : Nat)
      (b₁ : CreditBalance), d₂.tx_hash = d₁.tx_hash →
      (CreditStore.add_credits data d₁ now₁).2 = .ok b₁ →
      CreditStore.add_credits (CreditStore.add_credits data d₁ now₁).1 d₂ now₂ =
        ((CreditStore.add_credits data d₁ now₁).1,
         .error (.DuplicateTransaction d₂.tx_hash))) := by
  constructor
  · intro data d now h
    exact add_credits_of_mem data d now h
  · intro data d₁ d₂ now₁ now₂ b₁ hsame hok
    by_cases h₁ : d₁.tx_hash ∈ data.processed_tx_hashes
    · rw [add_credits_of_mem data d₁ now₁ h₁] at hok
      simp at hok
    · have hfst : (CreditStore.add_credits data d₁ now₁).1.processed_tx_hashes =
          data.processed_tx_hashes ++ [d₁.tx_hash] := by
        simp [CreditStore.add_credits, h₁]
      refine add_credits_of_mem _ _ _ ?_
      rw [hfst, hsame]
      exact List.mem_append_right _ (List.mem_singleton_self _)

/-- Witness for C2: the same transaction id deposited twice; the first
call succeeds and the second is rejected with the aggregate unchanged. -/
theorem add_credits_replay_protected_witness :
    (CreditStore.add_credits
        { CreditStoreData.default with processed_tx_hashes := ["0xabc"] }
        (sampleDep "d1" "0xabc" 5) 3 =
      ({ CreditStoreData.default with processed_tx_hashes := ["0xabc"] },
       .error (.DuplicateTransaction "0xabc"))) ∧
    (CreditStore.add_credits
        (CreditStore.add_credits CreditStoreData.default
          (sampleDep "d1" "0xabc" 5) 3).1 (sampleDep "d2" "0xabc" 5) 4 =
      ((CreditStore.add_credits CreditStoreData.default
          (sampleDep "d1" "0xabc" 5) 3).1,
       .error (.DuplicateTransaction "0xabc"))) := by
  refine ⟨?_, ?_⟩
  · exact add_credits_replay_protected.1 _ _ 3 (by decide)
  · exact add_credits_replay_protected.2 _ _ _ 3 4
      ((CreditBalance.new "u" 3).add_credits 5 3) rfl rfl

-- ### C3: lock order of the mutating store operations

/-- Lock and storage events of the credit store, in program order
(store.rs). `mutate` stands for the check-and-mutate of the aggregate
under the write lock; `persistWrite` for the encrypted file write
inside `persist`. -/
inductive StoreEvent
  | acquireWrite
  | mutate
  | releaseWrite
  | acquireRead
  | persistWrite
  | releaseRead
deriving DecidableEq

/-- Program-order event trace of the success path of
`CreditStore::add_credits` (store.rs lines 261-293): the write lock is
taken at `self.data.write()`, dropped at the end of the inner block
(the source comments "Persist (lock is released)"), and only then does
`persist` (store.rs lines 163-201) take a read lock on the data and
perform the encrypted file write. -/
def add_creditsTrace : List StoreEvent :=
  [.acquireWrite, .mutate, .releaseWrite, .acquireRead, .persistWrite,
   .releaseRead]

/-- Program-order event trace of the success path of
`CreditStore::deduct_credits` (store.rs lines 296-336); the lock shape
is identical to `add_credits`. -/
def deduct_creditsTrace : List StoreEvent :=
  [.acquireWrite, .mutate, .releaseWrite, .acquireRead, .persistWrite,
   .releaseRead]

/-- The property C3 asserts of an operation trace: the exclusive write
lock is not released until the persistence write has happened, i.e.
every release of the write lock comes after the persist write. -/
def writeLockHeldThroughPersist (tr : List StoreEvent) : Prop :=
  ∀ i j, tr.get? i = some .releaseWrite → tr.get? j = some .persistWrite →
    j < i

/-- C3 (counterexample): in both mutating operations the write lock is
released (index 2 of the trace) strictly before the persistence write
(index 4), so the claimed lock discipline is false on the code. -/
theorem lock_held_through_persist_counterexample :
    ¬ writeLockHeldThroughPersist add_creditsTrace ∧
    ¬ writeLockHeldThroughPersist deduct_creditsTrace := by
  constructor <;>
  · intro h
    have := h 2 4 rfl rfl
    omega

/-- C3 (amended): in both mutating operations the exclusive write lock
covers exactly the check-and-mutate step — acquired before it, released
right after it — and persistence runs only after that release, under a
read lock of its own that is dropped when the file write is done. -/
theorem lock_order_amended :
    (add_creditsTrace.indexOf .acquireWrite <
        add_creditsTrace.indexOf .mutate ∧
      add_creditsTrace.indexOf .mutate <
        add_creditsTrace.indexOf .releaseWrite ∧
      add_creditsTrace.indexOf .releaseWrite <
        add_creditsTrace.indexOf .acquireRead ∧
      add_creditsTrace.indexOf .acquireRead <
        add_creditsTrace.indexOf .persistWrite ∧
      add_creditsTrace.indexOf .persistWrite <
        add_creditsTrace.indexOf .releaseRead) ∧
    (deduct_creditsTrace.indexOf .acquireWrite <
        deduct_creditsTrace.indexOf .mutate ∧
      deduct_creditsTrace.indexOf .mutate <
        deduct_creditsTrace.indexOf .releaseWrite ∧
      deduct_creditsTrace.indexOf .releaseWrite <
        deduct_creditsTrace.indexOf .acquireRead ∧
      deduct_creditsTrace.indexOf .acquireRead <
        deduct_creditsTrace.indexOf .persistWrite ∧
      deduct_creditsTrace.indexOf .persistWrite <
        deduct_creditsTrace.indexOf .releaseRead) := by
  decide

-- ### C8: the pricing calculator

/-- Pricing configuration (src/crates/x402-payments/src/config.rs,
`struct PricingConfig`); u64 fields as Nat. The source field
`usdc_to_credits_ratio` appears here as `usdc_credits_per_usdc`; it is
not read by `calculate_credits`. -/
structure PricingConfig where
  prompt_credits_per_million : Nat
  completion_credits_per_million : Nat
  minimum_credits_per_message : Nat
  usdc_credits_per_usdc : Nat
deriving DecidableEq

/-- `PricingConfig::default` (config.rs lines 118-143). -/
def PricingConfig.default : PricingConfig :=
  { prompt_credits_per_million := 100000,
    completion_credits_per_million := 300000,
    minimum_credits_per_message := 100,
    usdc_credits_per_usdc := 1000000 }

/-- Token usage (src/crates/x402-payments/src/credits/pricing.rs,
`struct TokenUsage`); u32 fields as Nat. -/
structure TokenUsage where
  prompt_tokens : Nat
  completion_tokens : Nat
deriving DecidableEq

/-- Rust u64 wrapping of a Nat (release-profile arithmetic wraps
modulo 2^64). -/
def wrap64 (n : Nat) : Nat := n % 2 ^ 64

/-- `calculate_credits` (pricing.rs lines 31-39): per-million token
rates with floor division, with the configured minimum as a floor. -/
def calculate_credits (usage : TokenUsage) (config : PricingConfig) : Nat :=
  let prompt_cost :=
    wrap64 (usage.prompt_tokens * config.prompt_credits_per_million) / 1000000
  let completion_cost :=
    wrap64 (usage.completion_tokens * config.completion_credits_per_million) /
      1000000
  let total := wrap64 (prompt_cost + completion_cost)
  max total config.minimum_credits_per_message

/-- The Pricing Calculator formula exactly as the spec words it —
max(prompt_tokens*prompt_rate/1e6 + completion_tokens*completion_rate/1e6,
minimum_per_message) — over the same u64 integer arithmetic. -/
def specCreditsFormula (usage : TokenUsage) (config : PricingConfig) : Nat :=
  max
    (wrap64
      (wrap64 (usage.prompt_tokens * config.prompt_credits_per_million) /
          1000000 +
        wrap64 (usage.completion_tokens * config.completion_credits_per_million) /
          1000000))
    config.minimum_credits_per_message

/-- C8: `calculate_credits` equals the spec's max-of-rates formula for
every usage and config; with zero tokens it returns exactly the
configured minimum (and one-token usage under the default config also
floors to the minimum of 100); and prompt = completion = 1,000,000
under the default config yields 100,000 + 300,000 = 400,000. -/
theorem calculate_credits_spec :
    (∀ (usage : TokenUsage) (config : PricingConfig),
      calculate_credits usage config = specCreditsFormula usage config) ∧
    (∀ config : PricingConfig,
      calculate_credits { prompt_tokens := 0, completion_tokens := 0 } config =
        config.minimum_credits_per_message) ∧
    calculate_credits { prompt_tokens := 1, completion_tokens := 1 }
      PricingConfig.default = 100 ∧
    calculate_credits { prompt_tokens := 1000000, completion_tokens := 1000000 }
      PricingConfig.default = 400000 := by
  refine ⟨fun u c => rfl, ?_, by decide, by decide⟩
  intro config
  simp [calculate_credits, wrap64]

-- ### C7: the fund sweeper

/-- Outcome of an outbound chain transfer (`struct TxResult`, the
fields the sweeper reads). -/
structure TxResult where
  tx_hash : String
  success : Bool
deriving DecidableEq

/-- Operator addresses (types.rs, `struct OperatorAddresses`). -/
structure OperatorAddresses where
  base : Option String
  near : Option String
  solana : Option String
deriving DecidableEq

/-- `OperatorAddresses::get` and `FundSweeper::get_operator_address`
(types.rs lines 238-244, sweeper.rs lines 42-48). -/
def OperatorAddresses.get (o : OperatorAddresses) : Chain → Option String
  | .Base => o.base
  | .Near => o.near
  | .Solana => o.solana

/-- Sweep configuration (config.rs, `struct SweepConfig`); the interval
field drives only the background loop and is omitted. -/
structure SweepConfig where
  min_amount_usdc : Nat
  reserve_for_gas : Nat
deriving DecidableEq

/-- `SweepConfig::default` thresholds (config.rs lines 253-259). -/
def SweepConfig.default : SweepConfig :=
  { min_amount_usdc := 10000000, reserve_for_gas := 10000 }

/-- A sweep record (types.rs, `struct SweepRecord`); the Rust fields
`from` and `to` are carried as `from_addr` and `to_addr` (both are
reserved words in Lean). -/
structure SweepRecord where
  chain : Chain
  from_addr : String
  to_addr : String
  amount : Nat
  tx_hash : String
  success : Bool
  timestamp : Nat
deriving DecidableEq

/-- One chain facilitator as the sweeper observes it: its chain, its
deposit address, and the results its balance query and `transfer_to`
calls return (the shape of the mock facilitator in sweeper.rs's tests). -/
structure ChainView where
  chain : Chain
  deposit_address : String
  balance_result : Except PaymentError Nat
  transfer_result : Except PaymentError TxResult

/-- `FundSweeper::sweep_chain` (sweeper.rs lines 82-155): skip a chain
with no operator address; error out if the balance query fails; no-op
below the minimum threshold; compute the sweep amount by saturating
subtraction of the gas reserve and no-op if it is zero; otherwise
transfer and produce a record. -/
def sweep_chain (ops : OperatorAddresses) (config : SweepConfig) (now : Nat)
    (ch : ChainView) : Except PaymentError (Option SweepRecord) :=
  match ops.get ch.chain with
  | none => .ok none
  | some operator_addr =>
    match ch.balance_result with
    | .error e => .error e
    | .ok balance =>
      if balance < config.min_amount_usdc then .ok none
      else
        let sweep_amount := balance - config.reserve_for_gas
        if sweep_amount = 0 then .ok none
        else
          match ch.transfer_result with
          | .error e => .error e
          | .ok tx =>
            let record : SweepRecord :=
              { chain := ch.chain, from_addr := ch.deposit_address,
                to_addr := operator_addr, amount := sweep_amount,
                tx_hash := tx.tx_hash, success := tx.success,
                timestamp := now }
            .ok (some record)

/-- `FundSweeper::sweep_once` (sweeper.rs lines 51-80): iterate all
chains, collecting the records of the successful sweeps; a failed or
skipped chain contributes nothing and the iteration continues. -/
def sweep_once (ops : OperatorAddresses) (config : SweepConfig) (now : Nat)
    (chains : List ChainView) : List SweepRecord :=
  chains.foldl (fun records ch =>
    match sweep_chain ops config now ch with
    | .ok (some r) => records ++ [r]
    | .ok none => records
    | .error _ => records) []

/-- The records one chain contributes to a sweep cycle. -/
def stepRecords (ops : OperatorAddresses) (config : SweepConfig) (now : Nat)
    (ch : ChainView) : List SweepRecord :=
  match sweep_chain ops config now ch with
  | .ok (some r) => [r]
  | .ok none => []
  | .error _ => []

/-- History update at the end of `sweep_once` (sweeper.rs lines 68-77):
extend and keep only the last 100 records. -/
def updateHistory (history records : List SweepRecord) : List SweepRecord :=
  if records = [] then history
  else
    let h := history ++ records
    if 100 < h.length then h.drop (h.length - 100) else h

theorem sweepFold_step (ops : OperatorAddresses) (config : SweepConfig)
    (now : Nat) (records : List SweepRecord) (ch : ChainView) :
    (match sweep_chain ops config now ch with
      | .ok (some r) => records ++ [r]
      | .ok none => records
      | .error _ => records) = records ++ stepRecords ops config now ch := by
  cases h : sweep_chain ops config now ch with
  | ok o => cases o <;> simp [stepRecords, h]
  | error e => simp [stepRecords, h]

theorem sweepFold_acc (ops : OperatorAddresses) (config : SweepConfig)
    (now : Nat) (chains : List ChainView) :
    ∀ acc : List SweepRecord,
      chains.foldl (fun records ch =>
        match sweep_chain ops config now ch with
        | .ok (some r) => records ++ [r]
        | .ok none => records
        | .error _ => records) acc =
      acc ++ sweep_once ops config now chains := by
  induction chains with
  | nil => intro acc; simp [sweep_once]
  | cons ch rest ih =>
    intro acc
    simp only [sweep_once, List.foldl_cons]
    rw [sweepFold_step, sweepFold_step]
    rw [ih (acc ++ stepRecords ops config now ch),
      ih ([] ++ stepRecords ops config now ch)]
    simp [sweep_once]

theorem sweep_once_append (ops : OperatorAddresses) (config : SweepConfig)
    (now : Nat) (xs ys : List ChainView) :
    sweep_once ops config now (xs ++ ys) =
      sweep_once ops config now xs ++ sweep_once ops config now ys := by
  simp only [sweep_once, List.foldl_append]
  rw [sweepFold_acc ops config now ys]
  rfl

/-- Mock operator addresses with only Base configured, as in the
sweeper tests. -/
def opsBase : OperatorAddresses :=
  { base := some "0xoperator", near := none, solana := none }

/-- Mock Base chain with a given balance and an always-succeeding
transfer, as in the sweeper tests. -/
def mockChain (bal : Nat) : ChainView :=
  { chain := .Base, deposit_address := "deposit-Base",
    balance_result := .ok bal,
    transfer_result := .ok { tx_hash := "mock-tx-hash", success := true } }

/-- C7 (amended): per cycle and facilitator — no operator address means
skip regardless of balance; a failed balance query surfaces as that
chain's error; below the threshold nothing is transferred; otherwise,
provided balance − gas_reserve (saturating) is nonzero, exactly one
transfer of balance − gas_reserve is recorded (the threshold/gas
figures of the spec's examples: 20,000,000 yields one sweep of
19,990,000 and 5,000,000 yields none); a chain's failure contributes
nothing but never stops the remaining chains of the cycle; and the
in-memory history stays bounded by 100 records. -/
theorem sweeper_amended :
    (∀ (ops : OperatorAddresses) (config : SweepConfig) (now : Nat)
      (ch : ChainView), ops.get ch.chain = none →
      sweep_chain ops config now ch = .ok none) ∧
    (∀ (ops : OperatorAddresses) (config : SweepConfig) (now : Nat)
      (ch : ChainView) (addr : String) (bal : Nat),
      ops.get ch.chain = some addr → ch.balance_result = .ok bal →
      bal < config.min_amount_usdc →
      sweep_chain ops config now ch = .ok none) ∧
    (∀ (ops : OperatorAddresses) (config : SweepConfig) (now : Nat)
      (ch : ChainView) (addr : String) (bal : Nat) (tx : TxResult),
      ops.get ch.chain = some addr → ch.balance_result = .ok bal →
      ¬ bal < config.min_amount_usdc → bal - config.reserve_for_gas ≠ 0 →
      ch.transfer_result = .ok tx →
      sweep_chain ops config now ch = .ok (some
        { chain := ch.chain, from_addr := ch.deposit_address, to_addr := addr,
          amount := bal - config.reserve_for_gas, tx_hash := tx.tx_hash,
          success := tx.success, timestamp := now })) ∧
    sweep_once opsBase SweepConfig.default 0 [mockChain 20000000] =
      [{ chain := .Base, from_addr := "deposit-Base", to_addr := "0xoperator",
         amount := 19990000, tx_hash := "mock-tx-hash", success := true,
         timestamp := 0 }] ∧
    sweep_once opsBase SweepConfig.default 0 [mockChain 5000000] = [] ∧
    (∀ (ops : OperatorAddresses) (config : SweepConfig) (now : Nat)
      (xs ys : List ChainView),
      sweep_once ops config now (xs ++ ys) =
        sweep_once ops config now xs ++ sweep_once ops config now ys) ∧
    (∀ (ops : OperatorAddresses) (config : SweepConfig) (now : Nat)
      (ch : ChainView) (e : PaymentError),
      sweep_chain ops config now ch = .error e →
      sweep_once ops config now [ch] = []) ∧
    (∀ history records : List SweepRecord,
      (updateHistory history records).length ≤ max history.length 100) := by
  refine ⟨?_, ?_, ?_, rfl, rfl, sweep_once_append, ?_, ?_⟩
  · intro ops config now ch h
    simp [sweep_chain, h]
  · intro ops config now ch addr bal h1 h2 h3
    simp [sweep_chain, h1, h2, h3]
  · intro ops config now ch addr bal tx h1 h2 h3 h4 h5
    simp [sweep_chain, h1, h2, h3, h4, h5]
  · intro ops config now ch e h
    simp [sweep_once, h]
  · intro history records
    by_cases hr : records = []
    · simp [updateHistory, hr]
    · simp only [updateHistory, if_neg hr]
      by_cases hl : 100 < (history ++ records).length
      · rw [if_pos hl]
        simp only [List.length_drop]
        have h100 : (history ++ records).length -
            ((history ++ records).length - 100) = 100 := by omega
        rw [h100]
        exact le_max_right _ _
      · rw [if_neg hl]
        simp only [Nat.not_lt] at hl
        exact le_trans hl (le_max_right _ _)

/-- The record produced by sweeping the 20,000,000 mock balance. -/
def sweepRec20 : SweepRecord :=
  { chain := .Base, from_addr := "deposit-Base", to_addr := "0xoperator",
    amount := 19990000, tx_hash := "mock-tx-hash", success := true,
    timestamp := 0 }

/-- A mock chain whose balance query fails. -/
def downChain : ChainView :=
  { chain := .Base, deposit_address := "deposit-Base",
    balance_result := .error (.RpcError "down"),
    transfer_result := .ok { tx_hash := "t", success := true } }

/-- A mock chain on NEAR, for which no operator is configured. -/
def nearChain : ChainView :=
  { chain := .Near, deposit_address := "dep-near",
    balance_result := .ok 99999999,
    transfer_result := .ok { tx_hash := "t", success := true } }

/-- Witness for C7 (amended): the hypothesised clauses discharged on
concrete mocks. -/
theorem sweeper_amended_witness :
    sweep_chain opsBase SweepConfig.default 0 nearChain = .ok none ∧
    sweep_chain opsBase SweepConfig.default 0 (mockChain 5000000) = .ok none ∧
    sweep_chain opsBase SweepConfig.default 0 (mockChain 20000000) =
      .ok (some sweepRec20) ∧
    sweep_once opsBase SweepConfig.default 0 [downChain] = [] := by
  refine ⟨?_, ?_, ?_, ?_⟩
  · exact sweeper_amended.1 opsBase SweepConfig.default 0 _ rfl
  · exact sweeper_amended.2.1 opsBase SweepConfig.default 0 _ "0xoperator"
      5000000 rfl rfl (by decide)
  · exact sweeper_amended.2.2.1 opsBase SweepConfig.default 0 _ "0xoperator"
      20000000 { tx_hash := "mock-tx-hash", success := true } rfl rfl
      (by decide) (by decide) rfl
  · exact sweeper_amended.2.2.2.2.2.2.1 opsBase SweepConfig.default 0 _
      (.RpcError "down") rfl

/-- Mock operator addresses, config and chain for the C7
counterexample: threshold 10, gas reserve 10, balance exactly 10. -/
def cxSweepChain : ChainView :=
  { chain := .Base, deposit_address := "dep",
    balance_result := .ok 10,
    transfer_result := .ok { tx_hash := "h", success := true } }

/-- Operator addresses of the C7 counterexample. -/
def cxSweepOps : OperatorAddresses :=
  { base := some "op", near := none, solana := none }

/-- Config of the C7 counterexample. -/
def cxSweepCfg : SweepConfig :=
  { min_amount_usdc := 10, reserve_for_gas := 10 }

/-- C7 (counterexample): an operator address is configured and the
balance (10) reaches the minimum threshold (10), yet no transfer
happens, because balance − gas_reserve saturates to zero — refuting the
claim that above the threshold exactly one transfer of
balance − gas_reserve is always sent. -/
theorem sweeper_counterexample :
    cxSweepOps.get cxSweepChain.chain = some "op" ∧
    cxSweepChain.balance_result = .ok 10 ∧
    ¬ 10 < cxSweepCfg.min_amount_usdc ∧
    sweep_chain cxSweepOps cxSweepCfg 0 cxSweepChain = .ok none := by
  exact ⟨rfl, rfl, by decide, rfl⟩

-- ### C4 and C6: the encrypted persistence of the credit store
--
-- The store logic (store.rs `persist`/`load`) is modelled byte for
-- byte; its two external crates are modelled as ideal components:
-- serde_json as an injective serializer with a total decoder, and
-- aes_gcm as an ideal authenticated cipher whose decryption succeeds
-- exactly under the encrypting key and nonce. Tokens of `List Nat`
-- stand for the bytes of the serialized/encrypted stream.

/-- One serialized number. -/
def encNat (n : Nat) : List Nat := [n]

/-- Decoder for `encNat`: the consumed value and the remaining stream. -/
def decNat : List Nat → Option (Nat × List Nat)
  | [] => none
  | n :: rest => some (n, rest)

/-- A serialized string: length prefix then character codes. -/
def encString (s : String) : List Nat := s.length :: (s.data.map Char.toNat)

/-- Decode `n` characters. -/
def decChars : Nat → List Nat → Option (List Char × List Nat)
  | 0, l => some ([], l)
  | _ + 1, [] => none
  | n + 1, c :: rest =>
    match decChars n rest with
    | none => none
    | some (cs, l) => some (Char.ofNat c :: cs, l)

/-- Decoder for `encString`. -/
def decString (l : List Nat) : Option (String × List Nat) :=
  match decNat l with
  | none => none
  | some (n, rest) =>
    match decChars n rest with
    | none => none
    | some (cs, l') => some (String.mk cs, l')

/-- A serialized optional number. -/
def encOptNat : Option Nat → List Nat
  | none => [0]
  | some n => [1, n]

/-- Decoder for `encOptNat`. -/
def decOptNat : List Nat → Option (Option Nat × List Nat)
  | 0 :: rest => some (none, rest)
  | 1 :: n :: rest => some (some n, rest)
  | _ => none

/-- A serialized chain tag. -/
def encChain : Chain → List Nat
  | .Base => [0]
  | .Near => [1]
  | .Solana => [2]

/-- Decoder for `encChain`. -/
def decChain : List Nat → Option (Chain × List Nat)
  | 0 :: rest => some (.Base, rest)
  | 1 :: rest => some (.Near, rest)
  | 2 :: rest => some (.Solana, rest)
  | _ => none

/-- A serialized deposit status tag. -/
def encStatus : DepositStatus → List Nat
  | .Pending => [0]
  | .Confirmed => [1]
  | .Failed => [2]

/-- Decoder for `encStatus`. -/
def decStatus : List Nat → Option (DepositStatus × List Nat)
  | 0 :: rest => some (.Pending, rest)
  | 1 :: rest => some (.Confirmed, rest)
  | 2 :: rest => some (.Failed, rest)
  | _ => none

/-- A serialized credit balance. -/
def encBalance (b : CreditBalance) : List Nat :=
  encString b.user_id ++ encNat b.credits_remaining ++
    encNat b.total_deposited ++ encNat b.total_consumed ++
    encOptNat b.last_deposit_at ++ encOptNat b.last_usage_at ++
    encNat b.created_at

/-- Decoder for `encBalance`. -/
def decBalance (l : List Nat) : Option (CreditBalance × List Nat) :=
  match decString l with
  | none => none
  | some (u, l1) =>
    match decNat l1 with
    | none => none
    | some (cr, l2) =>
      match decNat l2 with
      | none => none
      | some (td, l3) =>
        match decNat l3 with
        | none => none
        | some (tc, l4) =>
          match decOptNat l4 with
          | none => none
          | some (ld, l5) =>
            match decOptNat l5 with
            | none => none
            | some (lu, l6) =>
              match decNat l6 with
              | none => none
              | some (ca, l7) =>
                let b : CreditBalance :=
                  { user_id := u, credits_remaining := cr,
                    total_deposited := td, total_consumed := tc,
                    last_deposit_at := ld, last_usage_at := lu,
                    created_at := ca }
                some (b, l7)

/-- A serialized deposit. -/
def encDeposit (d : Deposit) : List Nat :=
  encString d.id ++ encString d.user_id ++ encChain d.chain ++
    encString d.tx_hash ++ encNat d.amount_usdc ++
    encNat d.credits_granted ++ encStatus d.status ++
    encNat d.created_at ++ encOptNat d.confirmed_at

/-- Decoder for `encDeposit`. -/
def decDeposit (l : List Nat) : Option (Deposit × List Nat) :=
  match decString l with
  | none => none
  | some (i, l1) =>
    match decString l1 with
    | none => none
    | some (u, l2) =>
      match decChain l2 with
      | none => none
      | some (c, l3) =>
        match decString l3 with
        | none => none
        | some (tx, l4) =>
          match decNat l4 with
          | none => none
          | some (am, l5) =>
            match decNat l5 with
            | none => none
            | some (cg, l6) =>
              match decStatus l6 with
              | none => none
              | some (st, l7) =>
                match decNat l7 with
                | none => none
                | some (ca, l8) =>
                  match decOptNat l8 with
                  | none => none
                  | some (cf, l9) =>
                    let d : Deposit :=
                      { id := i, user_id := u, chain := c,
                        tx_hash := tx, amount_usdc := am,
                        credits_granted := cg, status := st,
                        created_at := ca, confirmed_at := cf }
                    some (d, l9)

/-- A serialized usage record. -/
def encUsage (u : UsageRecord) : List Nat :=
  encString u.user_id ++ encString u.conversation_id ++
    encNat u.prompt_tokens ++ encNat u.completion_tokens ++
    encNat u.total_tokens ++ encNat u.credits_consumed ++
    encNat u.timestamp

/-- Decoder for `encUsage`. -/
def decUsage (l : List Nat) : Option (UsageRecord × List Nat) :=
  match decString l with
  | none => none
  | some (ui, l1) =>
    match decString l1 with
    | none => none
    | some (cv, l2) =>
      match decNat l2 with
      | none => none
      | some (pt, l3) =>
        match decNat l3 with
        | none => none
        | some (ct, l4) =>
          match decNat l4 with
          | none => none
          | some (tt, l5) =>
            match decNat l5 with
            | none => none
            | some (cc, l6) =>
              match decNat l6 with
              | none => none
              | some (ts, l7) =>
                let u : UsageRecord :=
                  { user_id := ui, conversation_id := cv,
                    prompt_tokens := pt, completion_tokens := ct,
                    total_tokens := tt, credits_consumed := cc,
                    timestamp := ts }
                some (u, l7)

/-- A serialized balances-map entry. -/
def encEntry (p : String × CreditBalance) : List Nat :=
  encString p.1 ++ encBalance p.2

/-- Decoder for `encEntry`. -/
def decEntry (l : List Nat) : Option ((String × CreditBalance) × List Nat) :=
  match decString l with
  | none => none
  | some (k, l1) =>
    match decBalance l1 with
    | none => none
    | some (b, l2) => some ((k, b), l2)

/-- A serialized list: length prefix, then the elements in order. -/
def encListWith {α : Type} (enc : α → List Nat) (xs : List α) : List Nat :=
  xs.length :: xs.foldr (fun x acc => enc x ++ acc) []

/-- Decode exactly `n` elements. -/
def decCount {α : Type} (dec : List Nat → Option (α × List Nat)) :
    Nat → List Nat → Option (List α × List Nat)
  | 0, l => some ([], l)
  | n + 1, l =>
    match dec l with
    | none => none
    | some (x, l1) =>
      match decCount dec n l1 with
      | none => none
      | some (xs, l2) => some (x :: xs, l2)

/-- Decoder for `encListWith`. -/
def decListWith {α : Type} (dec : List Nat → Option (α × List Nat))
    (l : List Nat) : Option (List α × List Nat) :=
  match decNat l with
  | none => none
  | some (n, rest) => decCount dec n rest

/-- Serialization of the whole persisted aggregate (the role serde_json
plays for `CreditStoreData` in store.rs). -/
def encodeStoreData (d : CreditStoreData) : List Nat :=
  encNat d.version ++ encListWith encEntry d.balances ++
    encListWith encDeposit d.deposits ++ encListWith encUsage d.usage_log ++
    encListWith encString d.processed_tx_hashes

/-- Decoder for `encodeStoreData`. -/
def decodeStoreData (l : List Nat) : Option (CreditStoreData × List Nat) :=
  match decNat l with
  | none => none
  | some (v, l1) =>
    match decListWith decEntry l1 with
    | none => none
    | some (bs, l2) =>
      match decListWith decDeposit l2 with
      | none => none
      | some (ds, l3) =>
        match decListWith decUsage l3 with
        | none => none
        | some (us, l4) =>
          match decListWith decString l4 with
          | none => none
          | some (ps, l5) =>
            let d : CreditStoreData :=
              { version := v, balances := bs, deposits := ds,
                usage_log := us, processed_tx_hashes := ps }
            some (d, l5)

/-- The deserialization of a full plaintext, requiring the whole stream
to be consumed. -/
def parseStoreData (l : List Nat) : Option CreditStoreData :=
  match decodeStoreData l with
  | some (d, []) => some d
  | _ => none

-- Round-trip lemmas for the codec.

theorem decNat_enc (n : Nat) (rest : List Nat) :
    decNat (encNat n ++ rest) = some (n, rest) := rfl

theorem decChars_enc (cs : List Char) (rest : List Nat) :
    decChars cs.length (cs.map Char.toNat ++ rest) = some (cs, rest) := by
  induction cs with
  | nil => rfl
  | cons c cs ih => simp [decChars, ih, Char.ofNat_toNat]

theorem decString_enc (s : String) (rest : List Nat) :
    decString (encString s ++ rest) = some (s, rest) := by
  obtain ⟨cs⟩ := s
  have h : String.length ⟨cs⟩ = cs.length := rfl
  simp [encString, decString, decNat, h, decChars_enc]

theorem decOptNat_enc (o : Option Nat) (rest : List Nat) :
    decOptNat (encOptNat o ++ rest) = some (o, rest) := by
  cases o <;> rfl

theorem decChain_enc (c : Chain) (rest : List Nat) :
    decChain (encChain c ++ rest) = some (c, rest) := by
  cases c <;> rfl

theorem decStatus_enc (s : DepositStatus) (rest : List Nat) :
    decStatus (encStatus s ++ rest) = some (s, rest) := by
  cases s <;> rfl

theorem decBalance_enc (b : CreditBalance) (rest : List Nat) :
    decBalance (encBalance b ++ rest) = some (b, rest) := by
  obtain ⟨u, cr, td, tc, ld, lu, ca⟩ := b
  simp [encBalance, decBalance, List.append_assoc, decString_enc,
    decNat_enc, decOptNat_enc, encNat, decNat]

theorem decDeposit_enc (d : Deposit) (rest : List Nat) :
    decDeposit (encDeposit d ++ rest) = some (d, rest) := by
  obtain ⟨i, u, c, tx, am, cg, st, ca, cf⟩ := d
  simp [encDeposit, decDeposit, List.append_assoc, decString_enc,
    decChain_enc, decStatus_enc, decOptNat_enc, encNat, decNat]

theorem decUsage_enc (u : UsageRecord) (rest : List Nat) :
    decUsage (encUsage u ++ rest) = some (u, rest) := by
  obtain ⟨ui, cv, pt, ct, tt, cc, ts⟩ := u
  simp [encUsage, decUsage, List.append_assoc, decString_enc,
    encNat, decNat]

theorem decEntry_enc (p : String × CreditBalance) (rest : List Nat) :
    decEntry (encEntry p ++ rest) = some (p, rest) := by
  obtain ⟨k, b⟩ := p
  simp [encEntry, decEntry, List.append_assoc, decString_enc,
    decBalance_enc]

theorem decCount_enc {α : Type} (enc : α → List Nat)
    (dec : List Nat → Option (α × List Nat))
    (hdec : ∀ (x : α) (rest : List Nat), dec (enc x ++ rest) = some (x, rest))
    (xs : List α) (rest : List Nat) :
    decCount dec xs.length (xs.foldr (fun x acc => enc x ++ acc) [] ++ rest) =
      some (xs, rest) := by
  induction xs with
  | nil => rfl
  | cons x xs ih =>
    simp only [List.foldr_cons, List.length_cons, List.append_assoc]
    simp [decCount, hdec, ih]

theorem decListWith_enc {α : Type} (enc : α → List Nat)
    (dec : List Nat → Option (α × List Nat))
    (hdec : ∀ (x : α) (rest : List Nat), dec (enc x ++ rest) = some (x, rest))
    (xs : List α) (rest : List Nat) :
    decListWith dec (encListWith enc xs ++ rest) = some (xs, rest) := by
  simp [encListWith, decListWith, decNat, decCount_enc enc dec hdec]

theorem decodeStoreData_enc (d : CreditStoreData) (rest : List Nat) :
    decodeStoreData (encodeStoreData d ++ rest) = some (d, rest) := by
  obtain ⟨v, bs, ds, us, ps⟩ := d
  simp [encodeStoreData, decodeStoreData, List.append_assoc, encNat, decNat,
    decListWith_enc encEntry decEntry decEntry_enc,
    decListWith_enc encDeposit decDeposit decDeposit_enc,
    decListWith_enc encUsage decUsage decUsage_enc,
    decListWith_enc encString decString decString_enc]

theorem parseStoreData_enc (d : CreditStoreData) :
    parseStoreData (encodeStoreData d) = some d := by
  have h := decodeStoreData_enc d []
  simp at h
  simp [parseStoreData, h]

-- The ideal authenticated cipher and the persisted file format.

/-- Key size of the store cipher (32 bytes, AES-256-GCM). -/
def KEY_SIZE : Nat := 32

/-- Nonce size of the store cipher (store.rs `NONCE_SIZE`, 12 bytes). -/
def NONCE_SIZE : Nat := 12

/-- The aes_gcm crate (external) as an ideal authenticated cipher: the
ciphertext determines the key and nonce it was produced under, and the
plaintext. -/
def encryptAead (key nonce pt : List Nat) : List Nat := key ++ nonce ++ pt

/-- Ideal authenticated decryption: succeeds exactly when the
ciphertext was produced under the same key and nonce. -/
def decryptAead (key nonce ct : List Nat) : Option (List Nat) :=
  if ct.take KEY_SIZE = key ∧ (ct.drop KEY_SIZE).take NONCE_SIZE = nonce then
    some ((ct.drop KEY_SIZE).drop NONCE_SIZE)
  else none

/-- `CreditStore::persist` (store.rs lines 163-201) as the bytes it
writes: serialize the aggregate, encrypt it under the 32-byte key and
the per-save 12-byte nonce, and store the nonce immediately before the
ciphertext. -/
def persistBytes (key nonce : List Nat) (data : CreditStoreData) : List Nat :=
  nonce ++ encryptAead key nonce (encodeStoreData data)

/-- The error message of the decryption failure path of `load`. -/
def decryptFailMsg : String :=
  "Failed to decrypt credit store. TEE deployment may have changed."

/-- `CreditStore::load` (store.rs lines 203-243) on the optional file
contents: an absent file starts fresh; a file shorter than the nonce is
logged and also starts fresh; otherwise the leading 12 bytes are the
nonce, the rest is decrypted (failure is a hard `Encryption` error) and
deserialized (failure is a `Serialization` error). -/
def loadStore (key : List Nat) (file : Option (List Nat)) :
    Except PaymentError CreditStoreData :=
  match file with
  | none => .ok CreditStoreData.default
  | some encrypted =>
    if encrypted.length < NONCE_SIZE then .ok CreditStoreData.default
    else
      match decryptAead key (encrypted.take NONCE_SIZE)
          (encrypted.drop NONCE_SIZE) with
      | none => .error (.Encryption decryptFailMsg)
      | some plaintext =>
        match parseStoreData plaintext with
        | none => .error .Serialization
        | some d => .ok d

/-- C4 (counterexample): the corrupt three-byte file `[1, 2, 3]` cannot
be authenticated or decrypted, yet `load` silently treats it as the
empty store instead of failing — store.rs returns `Ok(())` with a
warning whenever the file is shorter than the 12-byte nonce. -/
theorem load_corrupt_counterexample :
    loadStore (List.replicate 32 7) (some [1, 2, 3]) =
      .ok CreditStoreData.default ∧ ([1, 2, 3] : List Nat).length < 12 := by
  exact ⟨rfl, by decide⟩

/-- C4 (amended): an absent file yields the empty store; a corrupt or
wrong-key file of at least the 12-byte nonce size fails with a hard
encryption error; but a file shorter than 12 bytes — though corrupt —
is silently treated as the empty store (a logged warning only). -/
theorem load_error_amended :
    (∀ key : List Nat, loadStore key none = .ok CreditStoreData.default) ∧
    (∀ key file : List Nat, NONCE_SIZE ≤ file.length →
      decryptAead key (file.take NONCE_SIZE) (file.drop NONCE_SIZE) = none →
      loadStore key (some file) = .error (.Encryption decryptFailMsg)) ∧
    (∀ key file : List Nat, file.length < NONCE_SIZE →
      loadStore key (some file) = .ok CreditStoreData.default) := by
  refine ⟨fun key => rfl, ?_, ?_⟩
  · intro key file hlen hdec
    simp [loadStore, Nat.not_lt.mpr hlen, hdec]
  · intro key file hlen
    simp [loadStore, hlen]

/-- Witness for C4 (amended): a 14-byte garbage file fails hard with
the encryption error; a 3-byte garbage file is treated as empty. -/
theorem load_error_amended_witness :
    loadStore (List.replicate 32 7) (some (List.replicate 14 1)) =
      .error (.Encryption decryptFailMsg) ∧
    loadStore (List.replicate 32 7) (some [1, 2, 3]) =
      .ok CreditStoreData.default := by
  constructor
  · exact load_error_amended.2.1 (List.replicate 32 7) (List.replicate 14 1)
      (by decide) (by decide)
  · exact load_error_amended.2.2 (List.replicate 32 7) [1, 2, 3] (by decide)

/-- C6: persisting any aggregate under a 32-byte key with any 12-byte
nonce (stored immediately before the ciphertext) and loading the file
back with the same key reproduces the identical aggregate; loading the
same file with any different 32-byte key fails with the hard encryption
error and never yields data. -/
theorem persist_load_roundtrip (key nonce key' : List Nat)
    (data : CreditStoreData) (hkey : key.length = KEY_SIZE)
    (hnonce : nonce.length = NONCE_SIZE) :
    loadStore key (some (persistBytes key nonce data)) = .ok data ∧
    (key' ≠ key → key'.length = KEY_SIZE →
      loadStore key' (some (persistBytes key nonce data)) =
        .error (.Encryption decryptFailMsg)) := by
  have hfile : persistBytes key nonce data =
      nonce ++ (key ++ (nonce ++ encodeStoreData data)) := by
    simp [persistBytes, encryptAead]
  have hlen : ¬ (persistBytes key nonce data).length < NONCE_SIZE := by
    rw [hfile]
    simp [List.length_append, hnonce]
  have htake : (persistBytes key nonce data).take NONCE_SIZE = nonce := by
    rw [hfile]
    exact List.take_left' hnonce
  have hdrop : (persistBytes key nonce data).drop NONCE_SIZE =
      key ++ (nonce ++ encodeStoreData data) := by
    rw [hfile]
    exact List.drop_left' hnonce
  have hctTake : (key ++ (nonce ++ encodeStoreData data)).take KEY_SIZE =
      key := List.take_left' hkey
  have hctDrop : (key ++ (nonce ++ encodeStoreData data)).drop KEY_SIZE =
      nonce ++ encodeStoreData data := List.drop_left' hkey
  constructor
  · have hdec : decryptAead key nonce (key ++ (nonce ++ encodeStoreData data)) =
        some (encodeStoreData data) := by
      simp [decryptAead, hctTake, hctDrop, List.take_left' hnonce,
        List.drop_left' hnonce]
    simp [loadStore, hlen, htake, hdrop, hdec, parseStoreData_enc]
  · intro hne hklen
    have hdec : decryptAead key' nonce
        (key ++ (nonce ++ encodeStoreData data)) = none := by
      simp [decryptAead, hctTake]
      intro h
      exact absurd h.symm hne
    simp [loadStore, hlen, htake, hdrop, hdec]

/-- Witness for C6: a concrete key, nonce, aggregate and a different
key. -/
theorem persist_load_roundtrip_witness :
    loadStore (List.replicate 32 7)
      (some (persistBytes (List.replicate 32 7) (List.replicate 12 9)
        store100)) = .ok store100 ∧
    loadStore (List.replicate 32 8)
      (some (persistBytes (List.replicate 32 7) (List.replicate 12 9)
        store100)) = .error (.Encryption decryptFailMsg) := by
  have h := persist_load_roundtrip (List.replicate 32 7)
    (List.replicate 12 9) (List.replicate 32 8) store100
    (by decide) (by decide)
  exact ⟨h.1, h.2 (by decide) (by decide)⟩

-- ### C9: EVM (Base) payment verification

/-- Decidable equality for results, used only to evaluate concrete
runs in witnesses. -/
instance {ε α : Type} [DecidableEq ε] [DecidableEq α] :
    DecidableEq (Except ε α)
  | .ok a, .ok b =>
    if h : a = b then .isTrue (by rw [h]) else
      .isFalse (by intro hc; cases hc; exact h rfl)
  | .ok _, .error _ => .isFalse (by intro hc; cases hc)
  | .error _, .ok _ => .isFalse (by intro hc; cases hc)
  | .error a, .error b =>
    if h : a = b then .isTrue (by rw [h]) else
      .isFalse (by intro hc; cases hc; exact h rfl)

/-- Result of verifying a payment (chains/mod.rs, `struct
PaymentVerification`); the Rust fields `from` and `to` are carried as
`from_addr` and `to_addr`. -/
structure PaymentVerification where
  tx_hash : String
  amount_usdc : Nat
  from_addr : Option String
  to_addr : String
  confirmations : Nat
  verified : Bool
deriving DecidableEq

/-- A log entry of an EVM transaction receipt (base.rs, `struct
TxLog`). -/
structure TxLog where
  address : String
  topics : List String
  data : String
deriving DecidableEq

/-- An EVM transaction receipt (base.rs, `struct TxReceipt`). -/
structure TxReceipt where
  status : String
  block_number : Option String
  logs : List TxLog
deriving DecidableEq

/-- Rust `str::to_lowercase` on the ASCII strings handled here. -/
def toLowerStr (s : String) : String := String.mk (s.data.map Char.toLower)

/-- Rust `trim_start_matches("0x")`: strip every repeated leading
"0x". -/
def trimStart0x : List Char → List Char
  | '0' :: 'x' :: rest => trimStart0x rest
  | l => l

/-- The value of one hex digit. -/
def hexDigitVal (c : Char) : Option Nat :=
  if '0' ≤ c ∧ c ≤ '9' then some (c.toNat - '0'.toNat)
  else if 'a' ≤ c ∧ c ≤ 'f' then some (c.toNat - 'a'.toNat + 10)
  else if 'A' ≤ c ∧ c ≤ 'F' then some (c.toNat - 'A'.toNat + 10)
  else none

/-- Big-endian hex accumulation. -/
def parseHexGo (acc : Nat) : List Char → Option Nat
  | [] => some acc
  | c :: rest =>
    match hexDigitVal c with
    | none => none
    | some v => parseHexGo (acc * 16 + v) rest

/-- `parse_hex_u64` (base.rs lines 301-314): strip the `0x` prefix,
treat an empty or `"0"` remainder as zero, parse the rest as a
big-endian hex integer through u128 and require it to fit in u64. -/
def parse_hex_u64 (s : String) : Except PaymentError Nat :=
  let clean := trimStart0x s.data
  if clean = [] ∨ clean = ['0'] then .ok 0
  else
    match parseHexGo 0 clean with
    | none => .error (.Internal "Invalid hex")
    | some v =>
      if v < 2 ^ 128 then
        if v < 2 ^ 64 then .ok v else .error (.Internal "Value overflow")
      else .error (.Internal "Invalid hex")

/-- base.rs `TRANSFER_EVENT_SIGNATURE`: keccak256 of
Transfer(address,address,uint256). -/
def TRANSFER_EVENT_SIGNATURE : String :=
  "0xddf252ad1be2c89b69c2b068fc378daa952ba7f163c4a11628f55a4df523b3ef"

/-- The last `n` characters of a string, modelling the byte slice
`&s[s.len() - n..]` on the ASCII strings handled here. -/
def lastChars (n : Nat) (s : String) : String :=
  String.mk (s.data.drop (s.data.length - n))

/-- Whether one receipt log is a Transfer of the known token contract
to the deposit address, exactly the four checks of base.rs lines
214-232 (`usdcL` and `depL` are the lowercased contract and deposit
addresses; the to-topic comparison is case-insensitive). -/
def logMatches (usdcL depL : String) (log : TxLog) : Bool :=
  (toLowerStr log.address == usdcL) &&
  decide (3 ≤ log.topics.length) &&
  (toLowerStr (log.topics.getD 0 "") == TRANSFER_EVENT_SIGNATURE) &&
  (toLowerStr ("0x" ++ lastChars 40 (log.topics.getD 2 "")) == depL)

/-- The log scan of `verify_usdc_transfer` (base.rs lines 214-247):
first matching Transfer wins; its indexed from-topic gives the sender
and its data parses as the big-endian amount (a parse failure aborts
the whole verification). -/
def scanLogs (usdcL depL : String) :
    List TxLog → Except PaymentError (Nat × Option String)
  | [] => .ok (0, none)
  | log :: rest =>
    if logMatches usdcL depL log then
      match parse_hex_u64 log.data with
      | .error e => .error e
      | .ok amt =>
        .ok (amt, some ("0x" ++ lastChars 40 (log.topics.getD 1 "")))
    else scanLogs usdcL depL rest

/-- Confirmation counting and result assembly, the tail of
`verify_usdc_transfer` (base.rs lines 278-297): parse the receipt's
block number (absent means 0), fetch the latest block, and report
`latest - tx_block` (saturating) confirmations. -/
def finishVerification (deposit_address tx_hash : String) (amt : Nat)
    (vfrom : Option String) (receipt_block : Option String)
    (current_block : Except PaymentError Nat) :
    Except PaymentError PaymentVerification :=
  match (match receipt_block with
         | none => Except.ok 0
         | some s => parse_hex_u64 s) with
  | .error e => .error e
  | .ok bn =>
    match current_block with
    | .error e => .error e
    | .ok cb =>
      .ok { tx_hash := tx_hash, amount_usdc := amt, from_addr := vfrom,
            to_addr := deposit_address, confirmations := cb - bn,
            verified := true }

/-- The expected-amount check of `verify_usdc_transfer` (base.rs lines
269-276). -/
def checkAmount (deposit_address tx_hash : String) (amt : Nat)
    (vfrom : Option String) (expected_amount : Option Nat)
    (receipt_block : Option String)
    (current_block : Except PaymentError Nat) :
    Except PaymentError PaymentVerification :=
  match expected_amount with
  | some expected =>
    if amt ≠ expected then .error (.AmountMismatch expected amt)
    else finishVerification deposit_address tx_hash amt vfrom receipt_block
      current_block
  | none => finishVerification deposit_address tx_hash amt vfrom
      receipt_block current_block

/-- `BaseFacilitator::verify_usdc_transfer` (base.rs lines 189-297),
with the two RPC reads supplied as arguments: the fetched receipt (None
when the transaction is unknown) and the `eth_blockNumber` result. -/
def verify_usdc_transfer (usdc_contract deposit_address tx_hash : String)
    (expected_from : Option String) (expected_amount : Option Nat)
    (receipt? : Option TxReceipt)
    (current_block : Except PaymentError Nat) :
    Except PaymentError PaymentVerification :=
  match receipt? with
  | none => .error (.TxNotFound tx_hash)
  | some receipt =>
    if receipt.status ≠ "0x1" then .error (.TxFailed tx_hash)
    else
      match scanLogs (toLowerStr usdc_contract) (toLowerStr deposit_address)
          receipt.logs with
      | .error e => .error e
      | .ok (verified_amount, verified_from) =>
        if verified_amount = 0 then
          .error (.NoTransferFound ("No USDC transfer to " ++
            deposit_address ++ " found in tx " ++ tx_hash))
        else
          match expected_from, verified_from with
          | some expected, some actual =>
            if toLowerStr actual ≠ toLowerStr expected then
              .error (.SenderMismatch expected actual)
            else checkAmount deposit_address tx_hash verified_amount
              verified_from expected_amount receipt.block_number
              current_block
          | _, _ => checkAmount deposit_address tx_hash verified_amount
              verified_from expected_amount receipt.block_number
              current_block

theorem scanLogs_no_match (usdcL depL : String) (logs : List TxLog)
    (h : ∀ log ∈ logs, logMatches usdcL depL log = false) :
    scanLogs usdcL depL logs = .ok (0, none) := by
  induction logs with
  | nil => rfl
  | cons log rest ih =>
    have hl := h log (List.mem_cons_self _ _)
    simp only [scanLogs, hl]
    simp only [Bool.false_eq_true, if_false]
    exact ih (fun l hm => h l (List.mem_cons_of_mem _ hm))

theorem scanLogs_first_match (usdcL depL : String) (pre post : List TxLog)
    (log : TxLog) (amt : Nat)
    (hpre : ∀ l ∈ pre, logMatches usdcL depL l = false)
    (hlog : logMatches usdcL depL log = true)
    (hamt : parse_hex_u64 log.data = .ok amt) :
    scanLogs usdcL depL (pre ++ log :: post) =
      .ok (amt, some ("0x" ++ lastChars 40 (log.topics.getD 1 ""))) := by
  induction pre with
  | nil => simp [scanLogs, hlog, hamt]
  | cons l rest ih =>
    have hl := hpre l (List.mem_cons_self _ _)
    simp only [List.cons_append, scanLogs, hl]
    simp only [Bool.false_eq_true, if_false]
    exact ih (fun l' hm => hpre l' (List.mem_cons_of_mem _ hm))

/-- C9: EVM (Base) verification, step by step as the claim describes
the procedure. No receipt is a not-found error; a receipt whose status
is not "0x1" is a transaction-failed error; if no log is a Transfer of
the known token contract whose indexed to-topic equals the deposit
address case-insensitively, the result is a no-matching-transfer
error; with such a log present (first match, nonzero big-endian amount
from the log data) and no sender expectation, a differing
caller-expected amount is an amount-mismatch rejection; and on success
the result carries that amount, the sender from the indexed from-topic,
and confirmations equal to latest_block minus the transaction's
block. -/
theorem base_verification_spec :
    (∀ (usdc dep tx : String) (ef : Option String) (ea : Option Nat)
      (cb : Except PaymentError Nat),
      verify_usdc_transfer usdc dep tx ef ea none cb =
        .error (.TxNotFound tx)) ∧
    (∀ (usdc dep tx : String) (ef : Option String) (ea : Option Nat)
      (receipt : TxReceipt) (cb : Except PaymentError Nat),
      receipt.status ≠ "0x1" →
      verify_usdc_transfer usdc dep tx ef ea (some receipt) cb =
        .error (.TxFailed tx)) ∧
    (∀ (usdc dep tx : String) (ef : Option String) (ea : Option Nat)
      (receipt : TxReceipt) (cb : Except PaymentError Nat),
      receipt.status = "0x1" →
      (∀ log ∈ receipt.logs,
        logMatches (toLowerStr usdc) (toLowerStr dep) log = false) →
      verify_usdc_transfer usdc dep tx ef ea (some receipt) cb =
        .error (.NoTransferFound ("No USDC transfer to " ++ dep ++
          " found in tx " ++ tx))) ∧
    (∀ (usdc dep tx : String) (ea : Nat) (receipt : TxReceipt)
      (cb : Except PaymentError Nat) (pre post : List TxLog) (log : TxLog)
      (amt : Nat),
      receipt.status = "0x1" → receipt.logs = pre ++ log :: post →
      (∀ l ∈ pre, logMatches (toLowerStr usdc) (toLowerStr dep) l = false) →
      logMatches (toLowerStr usdc) (toLowerStr dep) log = true →
      parse_hex_u64 log.data = .ok amt → amt ≠ 0 → ea ≠ amt →
      verify_usdc_transfer usdc dep tx none (some ea) (some receipt) cb =
        .error (.AmountMismatch ea amt)) ∧
    (∀ (usdc dep tx : String) (receipt : TxReceipt) (bs : String)
      (bn cb : Nat) (pre post : List TxLog) (log : TxLog) (amt : Nat),
      receipt.status = "0x1" → receipt.logs = pre ++ log :: post →
      (∀ l ∈ pre, logMatches (toLowerStr usdc) (toLowerStr dep) l = false) →
      logMatches (toLowerStr usdc) (toLowerStr dep) log = true →
      parse_hex_u64 log.data = .ok amt → amt ≠ 0 →
      receipt.block_number = some bs → parse_hex_u64 bs = .ok bn → bn ≤ cb →
      verify_usdc_transfer usdc dep tx none none (some receipt) (.ok cb) =
        .ok { tx_hash := tx, amount_usdc := amt,
              from_addr := some ("0x" ++ lastChars 40 (log.topics.getD 1 "")),
              to_addr := dep, confirmations := cb - bn,
              verified := true }) := by
  refine ⟨fun _ _ _ _ _ _ => rfl, ?_, ?_, ?_, ?_⟩
  · intro usdc dep tx ef ea receipt cb hst
    simp [verify_usdc_transfer, hst]
  · intro usdc dep tx ef ea receipt cb hst hnone
    have hscan := scanLogs_no_match (toLowerStr usdc) (toLowerStr dep)
      receipt.logs hnone
    cases ef <;> simp [verify_usdc_transfer, hst, hscan]
  · intro usdc dep tx ea receipt cb pre post log amt hst hlogs hpre hlog
      hamt hne hea
    have hscan := scanLogs_first_match (toLowerStr usdc) (toLowerStr dep)
      pre post log amt hpre hlog hamt
    rw [← hlogs] at hscan
    simp [verify_usdc_transfer, hst, hscan, hne, checkAmount, Ne.symm hea]
  · intro usdc dep tx receipt bs bn cb pre post log amt hst hlogs hpre hlog
      hamt hne hbs hbn hle
    have hscan := scanLogs_first_match (toLowerStr usdc) (toLowerStr dep)
      pre post log amt hpre hlog hamt
    rw [← hlogs] at hscan
    simp [verify_usdc_transfer, hst, hscan, hne, checkAmount,
      finishVerification, hbs, hbn]

/-- The receipt of the C9 witness: a successful transaction with one
USDC Transfer of 1,000,000 micro-USDC into the deposit address. -/
def wReceipt : TxReceipt :=
  { status := "0x1",
    block_number := some "0x10",
    logs := [{ address := "0xAAAAAAAAAAAAAAAAAAAAAAAAAAAAAAAAAAAAAAAA",
               topics := [
                 "0xddf252ad1be2c89b69c2b068fc378daa952ba7f163c4a11628f55a4df523b3ef",
                 "0x000000000000000000000000cccccccccccccccccccccccccccccccccccccccc",
                 "0x000000000000000000000000bbbbbbbbbbbbbbbbbbbbbbbbbbbbbbbbbbbbbbbb"],
               data := "0xf4240" }] }

/-- The token contract of the C9 witness (lowercase form differing from
the log's uppercase spelling, exercising the case-insensitive compare). -/
def wUsdc : String := "0xaaaaaaaaaaaaaaaaaaaaaaaaaaaaaaaaaaaaaaaa"

/-- The deposit address of the C9 witness. -/
def wDep : String := "0xBBBBbbbbbbbbbbbbbbbbbbbbbbbbbbbbbbbbbbbb"

/-- Witness for C9: each hypothesised clause evaluated on concrete
receipts. -/
theorem base_verification_spec_witness :
    verify_usdc_transfer wUsdc wDep "0xt" none none
      (some { wReceipt with status := "0x0" }) (.ok 32) =
      .error (.TxFailed "0xt") ∧
    verify_usdc_transfer wUsdc wDep "0xt" none none
      (some { wReceipt with logs := [] }) (.ok 32) =
      .error (.NoTransferFound ("No USDC transfer to " ++ wDep ++
        " found in tx " ++ "0xt")) ∧
    verify_usdc_transfer wUsdc wDep "0xt" none (some 5) (some wReceipt)
      (.ok 32) = .error (.AmountMismatch 5 1000000) ∧
    verify_usdc_transfer wUsdc wDep "0xt" none none (some wReceipt)
      (.ok 32) =
      .ok { tx_hash := "0xt", amount_usdc := 1000000,
            from_addr := some "0xcccccccccccccccccccccccccccccccccccccccc",
            to_addr := wDep, confirmations := 16, verified := true } := by
  refine ⟨?_, ?_, ?_, ?_⟩
  · exact base_verification_spec.2.1 wUsdc wDep "0xt" none none _ (.ok 32)
      (by decide)
  · exact base_verification_spec.2.2.1 wUsdc wDep "0xt" none none _ (.ok 32)
      rfl (by decide)
  · exact base_verification_spec.2.2.2.1 wUsdc wDep "0xt" 5 wReceipt
      (.ok 32) [] [] (wReceipt.logs.getD 0 ⟨"", [], ""⟩) 1000000 rfl rfl
      (by decide) (by decide) (by decide) (by decide) (by decide)
  · exact base_verification_spec.2.2.2.2 wUsdc wDep "0xt" wReceipt "0x10"
      16 32 [] [] (wReceipt.logs.getD 0 ⟨"", [], ""⟩) 1000000 rfl rfl
      (by decide) (by decide) (by decide) (by decide) rfl (by decide)
      (by decide)

-- ### C10: Solana payment verification infers the sender best-effort

/-- The `uiTokenAmount` of a Solana token balance (solana.rs,
`struct UiTokenAmount`; the optional float field is never read by
verification and is omitted). -/
structure UiTokenAmount where
  amount : String
  decimals : Nat
deriving DecidableEq

/-- A pre/post token balance snapshot entry (solana.rs, `struct
TokenBalance`). -/
structure TokenBalance where
  account_index : Nat
  mint : String
  owner : Option String
  ui_token_amount : UiTokenAmount
deriving DecidableEq

/-- Solana transaction metadata (solana.rs, `struct TransactionMeta`);
`err` carries the debug-formatted error when present, and the unused
`fee` is omitted. -/
structure TransactionMeta where
  err : Option String
  pre_token_balances : Option (List TokenBalance)
  post_token_balances : Option (List TokenBalance)
deriving DecidableEq

/-- The value of one decimal digit. -/
def decDigitVal (c : Char) : Option Nat :=
  if '0' ≤ c ∧ c ≤ '9' then some (c.toNat - '0'.toNat) else none

/-- Decimal accumulation. -/
def parseDecGo (acc : Nat) : List Char → Option Nat
  | [] => some acc
  | c :: rest =>
    match decDigitVal c with
    | none => none
    | some v => parseDecGo (acc * 10 + v) rest

/-- Rust `s.parse::<u64>().unwrap_or(0)`: an empty, non-numeric or
overflowing amount string counts as zero. -/
def parseU64OrZero (s : String) : Nat :=
  match s.data with
  | [] => 0
  | l =>
    match parseDecGo 0 l with
    | none => 0
    | some v => if v < 2 ^ 64 then v else 0

/-- The pre-balance matched to a post entry by account index
(solana.rs lines 314-318); a missing entry counts as zero. -/
def preAmountFor (pres : List TokenBalance) (idx : Nat) : Nat :=
  match pres.find? (fun p => p.account_index == idx) with
  | some p => parseU64OrZero p.ui_token_amount.amount
  | none => 0

/-- The counterparty inference (solana.rs lines 326-340): the first
pre-balance entry of the known mint whose account's balance strictly
decreased donates its owner (which may itself be absent) and the loop
breaks; if no such entry exists the sender stays unknown. -/
def inferSender (usdc_mint : String) (posts : List TokenBalance) :
    List TokenBalance → Option String
  | [] => none
  | pre :: rest =>
    if pre.mint = usdc_mint then
      match posts.find? (fun p => p.account_index == pre.account_index) with
      | some pe =>
        if parseU64OrZero pe.ui_token_amount.amount <
            parseU64OrZero pre.ui_token_amount.amount then pre.owner
        else inferSender usdc_mint posts rest
      | none => inferSender usdc_mint posts rest
    else inferSender usdc_mint posts rest

/-- The post-balance scan (solana.rs lines 301-343): the first
post entry of the known mint owned by the deposit wallet whose balance
strictly increased yields the verified amount (the positive delta) and
the inferred counterparty; otherwise no transfer is found. -/
def scanPosts (usdc_mint wallet : String) (pres posts : List TokenBalance) :
    List TokenBalance → Option (Nat × Option String)
  | [] => none
  | post :: rest =>
    if post.mint ≠ usdc_mint then scanPosts usdc_mint wallet pres posts rest
    else if post.owner.getD "" ≠ wallet then
      scanPosts usdc_mint wallet pres posts rest
    else
      let preA := preAmountFor pres post.account_index
      let postA := parseU64OrZero post.ui_token_amount.amount
      if preA < postA then some (postA - preA, inferSender usdc_mint posts pres)
      else scanPosts usdc_mint wallet pres posts rest

/-- The amount check and result assembly of the Solana verification
(solana.rs lines 365-387); Solana finality is reported as one
confirmation. -/
def solanaFinish (wallet signature : String) (amt : Nat)
    (vfrom : Option String) (expected_amount : Option Nat) :
    Except PaymentError PaymentVerification :=
  match expected_amount with
  | some expected =>
    if amt ≠ expected then .error (.AmountMismatch expected amt)
    else .ok { tx_hash := signature, amount_usdc := amt, from_addr := vfrom,
               to_addr := wallet, confirmations := 1, verified := true }
  | none =>
    .ok { tx_hash := signature, amount_usdc := amt, from_addr := vfrom,
          to_addr := wallet, confirmations := 1, verified := true }

/-- `SolanaFacilitator::verify_usdc_transfer` (solana.rs lines
273-387), with the fetched transaction metadata supplied as an
argument (None when the transaction is unknown). Note the sender check
(lines 353-362) fires only when a counterparty was inferred. -/
def solana_verify_usdc_transfer (usdc_mint wallet signature : String)
    (expected_from : Option String) (expected_amount : Option Nat)
    (tx? : Option TransactionMeta) :
    Except PaymentError PaymentVerification :=
  match tx? with
  | none => .error (.TxNotFound signature)
  | some meta =>
    match meta.err with
    | some e => .error (.TxFailed ("Transaction failed: " ++ e))
    | none =>
      let pres := meta.pre_token_balances.getD []
      let posts := meta.post_token_balances.getD []
      match scanPosts usdc_mint wallet pres posts posts with
      | none => .error (.NoTransferFound ("No USDC transfer to " ++ wallet ++
          " found in tx " ++ signature))
      | some (verified_amount, verified_from) =>
        match expected_from, verified_from with
        | some expected, some actual =>
          if actual ≠ expected then .error (.SenderMismatch expected actual)
          else solanaFinish wallet signature verified_amount verified_from
            expected_amount
        | _, _ => solanaFinish wallet signature verified_amount verified_from
            expected_amount

theorem solanaFinish_ne_senderMismatch (wallet signature : String)
    (amt : Nat) (vfrom : Option String) (ea : Option Nat)
    (e a : String) :
    solanaFinish wallet signature amt vfrom ea ≠
      .error (.SenderMismatch e a) := by
  cases ea with
  | none => simp [solanaFinish]
  | some expected =>
    by_cases h : amt = expected <;> simp [solanaFinish, h]

/-- C10: in Solana verification, when the caller supplies an expected
sender but the pre/post snapshots let no counterparty be inferred
(`scanPosts` reports the verified amount with an absent sender), the
sender expectation is silently not enforced: the call proceeds exactly
as the amount check dictates, a sender-mismatch error is impossible,
and with no (or the matching) expected amount it succeeds with the
sender reported as absent. -/
theorem solana_sender_unenforced (usdc_mint wallet sig expected : String)
    (ea : Option Nat) (meta : TransactionMeta) (amt : Nat)
    (herr : meta.err = none)
    (hscan : scanPosts usdc_mint wallet (meta.pre_token_balances.getD [])
      (meta.post_token_balances.getD [])
      (meta.post_token_balances.getD []) = some (amt, none)) :
    solana_verify_usdc_transfer usdc_mint wallet sig (some expected) ea
        (some meta) = solanaFinish wallet sig amt none ea ∧
    (∀ e a : String, solana_verify_usdc_transfer usdc_mint wallet sig
        (some expected) ea (some meta) ≠ .error (.SenderMismatch e a)) ∧
    (ea = none → solana_verify_usdc_transfer usdc_mint wallet sig
        (some expected) ea (some meta) =
      .ok { tx_hash := sig, amount_usdc := amt, from_addr := none,
            to_addr := wallet, confirmations := 1, verified := true }) := by
  have heq : solana_verify_usdc_transfer usdc_mint wallet sig (some expected)
      ea (some meta) = solanaFinish wallet sig amt none ea := by
    simp [solana_verify_usdc_transfer, herr, hscan]
  refine ⟨heq, ?_, ?_⟩
  · intro e a
    rw [heq]
    exact solanaFinish_ne_senderMismatch wallet sig amt none ea e a
  · intro hea
    subst hea
    rw [heq]
    rfl

/-- The metadata of the C10 witness: the deposit wallet's token account
of the known mint appears with 5 raw units after the transaction and no
pre snapshot at all, so the amount verifies as 5 while no account of
the mint shows a decrease to infer the counterparty from. -/
def wSolMeta : TransactionMeta :=
  { err := none,
    pre_token_balances := some [],
    post_token_balances := some
      [{ account_index := 1, mint := "MINT", owner := some "WALLET",
         ui_token_amount := { amount := "5", decimals := 6 } }] }

/-- Witness for C10: a caller-expected sender "S" together with
`wSolMeta` — verification succeeds, reporting no sender. -/
theorem solana_sender_unenforced_witness :
    solana_verify_usdc_transfer "MINT" "WALLET" "sig" (some "S") none
        (some wSolMeta) =
      .ok { tx_hash := "sig", amount_usdc := 5, from_addr := none,
            to_addr := "WALLET", confirmations := 1, verified := true } ∧
    (∀ e a : String, solana_verify_usdc_transfer "MINT" "WALLET" "sig"
        (some "S") none (some wSolMeta) ≠ .error (.SenderMismatch e a)) := by
  have h := solana_sender_unenforced "MINT" "WALLET" "sig" "S" none wSolMeta 5
    rfl (by decide)
  exact ⟨h.2.2 rfl, h.2.1⟩

end X402
